import Mathlib

/-!
Verification development for the CV-enrichment pipeline (brindlev10).

The Python source is shallowly embedded: pure functions become Lean
functions on `List Char` / `String`, `Int` models Python's arbitrary
precision integers (Python `//` is floor division, modelled by
`Int.fdiv`), and fallible operations return `Option` / `Except`.
All definitions are executable and structurally recursive (fuel is used
where the source loop advances by a variable number of elements), so
concrete runs evaluate by `decide` / `rfl`.
-/

namespace Brindle

/-! ### Python string primitives (ASCII fragment used by the source) -/

/-- Lowercase one character, as Python str.lower does on ASCII. -/
def lowerChar (c : Char) : Char :=
  if 65 ≤ c.toNat ∧ c.toNat ≤ 90 then Char.ofNat (c.toNat + 32) else c

/-- Uppercase one character, as Python str.upper does on ASCII. -/
def upperChar (c : Char) : Char :=
  if 97 ≤ c.toNat ∧ c.toNat ≤ 122 then Char.ofNat (c.toNat - 32) else c

/-- Python str.lower on the ASCII fragment. -/
def pyLower (s : String) : String := ⟨s.data.map lowerChar⟩

/-- Python str.upper on the ASCII fragment. -/
def pyUpper (s : String) : String := ⟨s.data.map upperChar⟩

/-- Python str.capitalize: first character uppercased, the rest lowercased. -/
def pyCapitalize (s : String) : String :=
  match s.data with
  | [] => ""
  | c :: rest => ⟨upperChar c :: rest.map lowerChar⟩

/-- Python whitespace characters (the ones str.strip and str.split treat as space). -/
def isSpaceChar (c : Char) : Bool :=
  c.toNat = 32 ∨ c.toNat = 9 ∨ c.toNat = 10 ∨ c.toNat = 13 ∨ c.toNat = 11 ∨ c.toNat = 12

/-- Python str.strip with no arguments (trim whitespace on both ends). -/
def pyStripChars (s : List Char) : List Char :=
  ((s.dropWhile isSpaceChar).reverse.dropWhile isSpaceChar).reverse

/-- Python str.strip on String. -/
def pyStrip (s : String) : String := ⟨pyStripChars s.data⟩

/-- Splitter for Python str.split() with no arguments: split on whitespace
runs, dropping empty pieces.  The accumulator holds the current word in
reverse. -/
def pySplitAux (acc : List Char) : List Char → List (List Char)
  | [] => if acc.isEmpty then [] else [acc.reverse]
  | c :: rest =>
    if isSpaceChar c then
      if acc.isEmpty then pySplitAux [] rest else acc.reverse :: pySplitAux [] rest
    else
      pySplitAux (c :: acc) rest

/-- Python str.split() with no arguments. -/
def pySplit (s : String) : List String :=
  (pySplitAux [] s.data).map fun w => ⟨w⟩

/-- Whether pat is a prefix of s (on char lists). -/
def startsWithChars : List Char → List Char → Bool
  | [], _ => true
  | _ :: _, [] => false
  | p :: ps, c :: cs => p = c && startsWithChars ps cs

/-- Python str.replace: leftmost, non-overlapping, replace all.  Structural
recursion on fuel; each step consumes at least one character, so fuel equal
to the length of the string suffices. -/
def pyReplaceAux (pat rep : List Char) : Nat → List Char → List Char
  | _, [] => []
  | 0, s => s
  | fuel + 1, c :: rest =>
    if pat.isEmpty then c :: rest
    else if startsWithChars pat (c :: rest) then
      rep ++ pyReplaceAux pat rep fuel (List.drop (pat.length - 1) rest)
    else
      c :: pyReplaceAux pat rep fuel rest

/-- Python str.replace on String. -/
def pyReplace (s pat rep : String) : String :=
  ⟨pyReplaceAux pat.data rep.data s.data.length s.data⟩

/-- Python ' '.join of a list of strings. -/
def joinSpace (parts : List String) : String := String.intercalate " " parts

/-! ### Duration coercion (doc_generator.prepare_context lines 630-644,
claude_utils.generate_blurb_with_claude lines 150-165) -/

/-- The possible shapes of the duration_in_months JSON field as the Python
code distinguishes them: absent (None), an int, a string (which Python
int() may or may not parse), or any other type (e.g. a float).  JSON
booleans are Python ints by subclassing and are outside this model. -/
inductive DurationField where
  | absent : DurationField
  | intVal (n : Int) : DurationField
  | strVal (s : String) : DurationField
  | wrongType : DurationField
deriving DecidableEq, Repr

/-- Parse the digits of a decimal literal. -/
def parseDigits : List Char → Option Nat
  | [] => none
  | l => l.foldl (fun acc c =>
      match acc with
      | none => none
      | some n => if 48 ≤ c.toNat ∧ c.toNat ≤ 57 then some (n * 10 + (c.toNat - 48)) else none)
      (some 0)

/-- Python int(s) on a string: strips whitespace, accepts an optional sign
followed by decimal digits; anything else raises ValueError, modelled as
none.  (Underscore separators and non-decimal bases are out of scope.) -/
def pyParseInt (s : String) : Option Int :=
  match pyStripChars s.data with
  | '-' :: rest => (parseDigits rest).map fun n => -(n : Int)
  | '+' :: rest => (parseDigits rest).map fun n => (n : Int)
  | rest => (parseDigits rest).map fun n => (n : Int)

/-- The body of the try-block in prepare_context that coerces
duration_in_months: None defaults to 0, a string goes through int() which
may raise ValueError (the error case), a non-int type defaults to 0. -/
def coerceDurationTry (d : DurationField) : Except String Int :=
  match d with
  | .absent => .ok 0
  | .intVal n => .ok n
  | .strVal s =>
    match pyParseInt s with
    | some n => .ok n
    | none => .error "ValueError"
  | .wrongType => .ok 0

/-- prepare_context duration coercion after the except-handler: a raised
ValueError/TypeError is caught and the duration defaults to 0. -/
def coerceDuration (d : DurationField) : Int :=
  match coerceDurationTry d with
  | .ok n => n
  | .error _ => 0

/-- Whether prepare_context emits a warning or error log entry for this
duration value (absent, wrong type, or unparseable string). -/
def durationWarning (d : DurationField) : Bool :=
  match d with
  | .absent => true
  | .intVal _ => false
  | .strVal s => (pyParseInt s).isNone
  | .wrongType => true

/-- claude_utils duration handling: the loop skips (continue) absent,
unparseable-string and non-int durations, which contributes 0 to the
bucket sums. -/
def claudeCoerceDuration (d : DurationField) : Int :=
  match d with
  | .absent => 0
  | .intVal n => n
  | .strVal s =>
    match pyParseInt s with
    | some n => n
    | none => 0
  | .wrongType => 0

/-! ### Experience entries and the years aggregation -/

/-- One professional_experiences entry, restricted to the fields the
aggregation and location enrichment read. -/
structure Experience where
  company : String
  title : String
  location : String
  duration_in_months : DurationField
  is_nz : Option Bool
deriving DecidableEq, Repr

/-- The month-accumulation loop of prepare_context (doc_generator lines
619-664): a single pass accumulating (nz_months, international_months,
total_months), classifying on exp.get('is_nz', False). -/
def prepareMonths (exps : List Experience) : Int × Int × Int :=
  exps.foldl
    (fun acc e =>
      let d := coerceDuration e.duration_in_months
      if e.is_nz.getD false then (acc.1 + d, acc.2.1, acc.2.2 + d)
      else (acc.1, acc.2.1 + d, acc.2.2 + d))
    (0, 0, 0)

/-- round_up_years (doc_generator lines 519-524): (months + 11) // 12 with
Python floor division. -/
def round_up_years (months : Int) : Int := Int.fdiv (months + 11) 12

/-- The years computation of prepare_context (doc_generator lines 666-675):
round up each bucket and the grand total, derive international years as
the difference, and override when the difference understates the
independently rounded figure.  Returns (nz_years, international_years,
total_years). -/
def prepareYears (exps : List Experience) : Int × Int × Int :=
  let m := prepareMonths exps
  let total0 := round_up_years m.2.2
  let nzY := round_up_years m.1
  let initIntl := round_up_years m.2.1
  let intl0 := total0 - nzY
  if intl0 < initIntl then (nzY, initIntl, nzY + initIntl)
  else (nzY, intl0, total0)

/-- Home-bucket month sum phrased as in spec §4.2 step 1-2: filter on the
is_nz flag (missing means foreign) and sum the durations. -/
def spec_home_months (exps : List Experience) : Int :=
  ((exps.filter fun e => e.is_nz.getD false).map
    fun e => coerceDuration e.duration_in_months).sum

/-- Foreign-bucket month sum phrased as in spec §4.2 step 1-2. -/
def spec_foreign_months (exps : List Experience) : Int :=
  ((exps.filter fun e => !(e.is_nz.getD false)).map
    fun e => coerceDuration e.duration_in_months).sum

/-- Spec §4.2 steps 3-5 phrased from the spec's words, over the bucket
sums: home_years and foreign_years_initial round each bucket up,
total_years rounds the combined months up, foreign_years is the
difference, and the override recomputes the total when the difference is
less than foreign_years_initial. -/
def specYearsAggregation (exps : List Experience) : Int × Int × Int :=
  let hm := spec_home_months exps
  let fm := spec_foreign_months exps
  let home_years := round_up_years hm
  let foreign_years_initial := round_up_years fm
  let total_years := round_up_years (hm + fm)
  let foreign_years := total_years - home_years
  if foreign_years < foreign_years_initial then
    (home_years, foreign_years_initial, home_years + foreign_years_initial)
  else (home_years, foreign_years, total_years)

/-- The claude_utils bucket sums (generate_blurb_with_claude): same
classification, durations that fail coercion are skipped. -/
def claudeMonths (exps : List Experience) : Int × Int :=
  exps.foldl
    (fun acc e =>
      let d := claudeCoerceDuration e.duration_in_months
      if e.is_nz.getD false then (acc.1 + d, acc.2)
      else (acc.1, acc.2 + d))
    (0, 0)

/-- claude_utils total years: round each bucket up independently and sum. -/
def claudeTotalYears (exps : List Experience) : Int :=
  let m := claudeMonths exps
  round_up_years m.1 + round_up_years m.2

/-! ### Helper lemmas for the aggregation -/

theorem claudeCoerce_eq_coerce (d : DurationField) :
    claudeCoerceDuration d = coerceDuration d := by
  cases d <;> simp [claudeCoerceDuration, coerceDuration, coerceDurationTry]
  case strVal s => cases pyParseInt s <;> simp

theorem prepareMonths_aux (exps : List Experience) :
    ∀ a b c : Int,
      exps.foldl
        (fun acc e =>
          let d := coerceDuration e.duration_in_months
          if e.is_nz.getD false then (acc.1 + d, acc.2.1, acc.2.2 + d)
          else (acc.1, acc.2.1 + d, acc.2.2 + d))
        (a, b, c)
      = (a + spec_home_months exps, b + spec_foreign_months exps,
         c + spec_home_months exps + spec_foreign_months exps) := by
  induction exps with
  | nil => intro a b c; simp [spec_home_months, spec_foreign_months]
  | cons e rest ih =>
    intro a b c
    by_cases h : e.is_nz.getD false
    · simp only [List.foldl_cons, h, if_true]
      rw [ih]
      simp [spec_home_months, spec_foreign_months, List.filter_cons, h,
        Prod.mk.injEq]
      omega
    · simp only [Bool.not_eq_true] at h
      simp only [List.foldl_cons, h, Bool.false_eq_true, if_false]
      rw [ih]
      simp [spec_home_months, spec_foreign_months, List.filter_cons, h,
        Prod.mk.injEq]
      omega

theorem prepareMonths_eq (exps : List Experience) :
    prepareMonths exps
      = (spec_home_months exps, spec_foreign_months exps,
         spec_home_months exps + spec_foreign_months exps) := by
  have h := prepareMonths_aux exps 0 0 0
  simpa [prepareMonths] using h

/-- Rounding up to years is subadditive: the combined bucket never rounds
to more than the independently rounded buckets. -/
theorem round_up_years_subadd (h f : Int) :
    round_up_years (h + f) ≤ round_up_years h + round_up_years f := by
  unfold round_up_years
  rw [Int.fdiv_eq_ediv _ (by norm_num), Int.fdiv_eq_ediv _ (by norm_num),
    Int.fdiv_eq_ediv _ (by norm_num)]
  omega

theorem claudeMonths_aux (exps : List Experience) :
    ∀ a b : Int,
      exps.foldl
        (fun acc e =>
          let d := claudeCoerceDuration e.duration_in_months
          if e.is_nz.getD false then (acc.1 + d, acc.2)
          else (acc.1, acc.2 + d))
        (a, b)
      = (a + spec_home_months exps, b + spec_foreign_months exps) := by
  induction exps with
  | nil => intro a b; simp [spec_home_months, spec_foreign_months]
  | cons e rest ih =>
    intro a b
    by_cases h : e.is_nz.getD false
    · simp only [List.foldl_cons, h, if_true]
      rw [ih]
      simp [spec_home_months, spec_foreign_months, List.filter_cons, h,
        claudeCoerce_eq_coerce, Prod.mk.injEq]
      omega
    · simp only [Bool.not_eq_true] at h
      simp only [List.foldl_cons, h, Bool.false_eq_true, if_false]
      rw [ih]
      simp [spec_home_months, spec_foreign_months, List.filter_cons, h,
        claudeCoerce_eq_coerce, Prod.mk.injEq]
      omega

theorem claudeMonths_eq (exps : List Experience) :
    claudeMonths exps = (spec_home_months exps, spec_foreign_months exps) := by
  have h := claudeMonths_aux exps 0 0
  simpa [claudeMonths] using h

/-- The two concrete experiences of the end-to-end scenario: one home
experience of 6 months and one foreign experience of 18 months. -/
def scenarioExps : List Experience :=
  [{ company := "Kiwi Builders", title := "Builder", location := "Auckland",
     duration_in_months := .intVal 6, is_nz := some true },
   { company := "Gulf Eng", title := "Fitter", location := "Dubai",
     duration_in_months := .intVal 18, is_nz := some false }]

/-- C1: for every list of experiences with non-negative month durations the
prepare_context aggregation equals the spec §4.2 step-by-step formula over
the bucket sums (home rounded up, foreign rounded up, combined total
rounded up, foreign as the difference, override when the difference is
less than the independent figure), and on one 6-month home experience plus
one 18-month foreign experience the total is 3 years. -/
theorem years_aggregation_follows_spec_steps (exps : List Experience)
    (h : ∀ e ∈ exps, 0 ≤ coerceDuration e.duration_in_months) :
    prepareYears exps = specYearsAggregation exps
    ∧ (prepareYears scenarioExps).2.2 = 3 := by
  refine ⟨?_, by decide⟩
  unfold prepareYears specYearsAggregation
  rw [prepareMonths_eq]

/-- Witness for C1 at the concrete 6-month-home / 18-month-foreign list. -/
theorem years_aggregation_follows_spec_steps_witness :
    (∀ e ∈ scenarioExps, 0 ≤ coerceDuration e.duration_in_months)
    ∧ prepareYears scenarioExps = specYearsAggregation scenarioExps
    ∧ (prepareYears scenarioExps).2.2 = 3 :=
  ⟨by decide, years_aggregation_follows_spec_steps scenarioExps (by decide)⟩

/-- C2: the multi-step adjusted total of prepare_context always equals the
simpler total of generate_blurb_with_claude, namely the sum of the
independently rounded home and foreign buckets; rounding up is subadditive
so the override branch collapses the adjusted total to that sum. -/
theorem prepare_total_equals_claude_total (exps : List Experience)
    (h : ∀ e ∈ exps, 0 ≤ coerceDuration e.duration_in_months) :
    (prepareYears exps).2.2 = claudeTotalYears exps := by
  have hsub := round_up_years_subadd (spec_home_months exps) (spec_foreign_months exps)
  unfold prepareYears claudeTotalYears
  rw [prepareMonths_eq, claudeMonths_eq]
  simp only
  split_ifs with hc
  · rfl
  · show round_up_years (spec_home_months exps + spec_foreign_months exps)
      = round_up_years (spec_home_months exps) + round_up_years (spec_foreign_months exps)
    omega

/-- Witness for C2 at the concrete 6-month-home / 18-month-foreign list. -/
theorem prepare_total_equals_claude_total_witness :
    (∀ e ∈ scenarioExps, 0 ≤ coerceDuration e.duration_in_months)
    ∧ (prepareYears scenarioExps).2.2 = claudeTotalYears scenarioExps :=
  ⟨by decide, prepare_total_equals_claude_total scenarioExps (by decide)⟩

/-- C8: an absent, non-numeric-string or wrong-typed duration_in_months is
coerced to 0 months with a warning log; any exception the coercion body
raises is the caught ValueError, so the value is 0 rather than a crash,
and the aggregation over a list containing such an entry completes and
equals the aggregation with the duration replaced by the integer 0. -/
theorem bad_duration_treated_as_zero (d : DurationField)
    (h : d = .absent ∨ d = .wrongType ∨ ∃ s, d = .strVal s ∧ pyParseInt s = none) :
    coerceDuration d = 0 ∧ durationWarning d = true
    ∧ (coerceDurationTry d = .ok 0 ∨ coerceDurationTry d = .error "ValueError")
    ∧ (∀ (c t l : String) (nzf : Option Bool) (pre post : List Experience),
        prepareYears (pre ++ Experience.mk c t l d nzf :: post)
          = prepareYears (pre ++ Experience.mk c t l (.intVal 0) nzf :: post)) := by
  have hz : coerceDuration d = 0 := by
    rcases h with h | h | ⟨s, hds, hs⟩ <;> subst_vars <;>
      simp [coerceDuration, coerceDurationTry, *]
  have hw : durationWarning d = true := by
    rcases h with h | h | ⟨s, hds, hs⟩ <;> subst_vars <;>
      simp [durationWarning, *]
  have ht : coerceDurationTry d = .ok 0 ∨ coerceDurationTry d = .error "ValueError" := by
    rcases h with h | h | ⟨s, hds, hs⟩ <;> subst_vars <;>
      simp [coerceDurationTry, *]
  refine ⟨hz, hw, ht, ?_⟩
  intro c t l nzf pre post
  unfold prepareYears
  rw [prepareMonths_eq, prepareMonths_eq]
  have hhome : ∀ dd : DurationField,
      spec_home_months (pre ++ Experience.mk c t l dd nzf :: post)
        = spec_home_months pre
          + (if nzf.getD false then coerceDuration dd else 0)
          + spec_home_months post := by
    intro dd
    by_cases hb : nzf.getD false <;>
      simp [spec_home_months, List.filter_append, List.filter_cons, hb] <;> ring
  have hforeign : ∀ dd : DurationField,
      spec_foreign_months (pre ++ Experience.mk c t l dd nzf :: post)
        = spec_foreign_months pre
          + (if nzf.getD false then 0 else coerceDuration dd)
          + spec_foreign_months post := by
    intro dd
    by_cases hb : nzf.getD false <;>
      simp [spec_foreign_months, List.filter_append, List.filter_cons, hb] <;> ring
  rw [hhome, hhome, hforeign, hforeign, hz]
  simp [coerceDuration, coerceDurationTry]

/-- Witness for C8 at the concrete non-numeric string "about a year". -/
theorem bad_duration_treated_as_zero_witness :
    (DurationField.strVal "about a year" = .absent
      ∨ DurationField.strVal "about a year" = .wrongType
      ∨ ∃ s, DurationField.strVal "about a year" = .strVal s ∧ pyParseInt s = none)
    ∧ coerceDuration (.strVal "about a year") = 0
    ∧ durationWarning (.strVal "about a year") = true :=
  ⟨Or.inr (Or.inr ⟨"about a year", rfl, by decide⟩),
    (bad_duration_treated_as_zero (.strVal "about a year")
      (Or.inr (Or.inr ⟨"about a year", rfl, by decide⟩))).1,
    (bad_duration_treated_as_zero (.strVal "about a year")
      (Or.inr (Or.inr ⟨"about a year", rfl, by decide⟩))).2.1⟩

/-! ### LocationService (location_service.py) -/

/-- Python regex word character (ASCII fragment): letter, digit or
underscore. -/
def isWordChar (c : Char) : Bool :=
  (48 ≤ c.toNat ∧ c.toNat ≤ 57) ∨ (65 ≤ c.toNat ∧ c.toNat ≤ 90)
  ∨ (97 ≤ c.toNat ∧ c.toNat ≤ 122) ∨ c.toNat = 95

/-- Whether the character at position p (if any) is a word character. -/
def wordAt (s : List Char) (p : Nat) : Bool := isWordChar (s.getD p ' ')

/-- Whether the character just before position p is a word character. -/
def boundaryBefore (s : List Char) (p : Nat) : Bool :=
  match p with
  | 0 => false
  | q + 1 => wordAt s q

/-- The regex word-boundary test at position p: exactly one of the two
adjacent positions holds a word character. -/
def boundaryAt (s : List Char) (p : Nat) : Bool :=
  (boundaryBefore s p && !wordAt s p) || (!boundaryBefore s p && wordAt s p)

/-- Whether pat occurs literally at position i of s. -/
def occursAt (pat s : List Char) (i : Nat) : Bool :=
  decide ((s.drop i).take pat.length = pat)

/-- One candidate match of the regex word-boundary + escaped-literal +
word-boundary pattern at position i. -/
def wordMatchAt (pat s : List Char) (i : Nat) : Bool :=
  occursAt pat s i && boundaryAt s i && boundaryAt s (i + pat.length)

/-- re.search of the whole-word pattern: some starting position matches. -/
def reSearchWord (pat s : List Char) : Bool :=
  (List.range (s.length + 1)).any (wordMatchAt pat s)

/-- LocationService._clean_location: empty stays empty, otherwise
lowercase, replace commas and periods by spaces, and strip. -/
def clean_location (s : String) : String :=
  if s = "" then ""
  else pyStrip (pyReplace (pyReplace (pyLower s) "," " ") "." " ")

/-- LocationService.is_nz_location over a given gazetteer: empty input is
False, otherwise some gazetteer entry must whole-word-match the cleaned
input. -/
def is_nz_location (nzLocations : List String) (s : String) : Bool :=
  if s = "" then false
  else nzLocations.any fun loc => reSearchWord loc.data (clean_location s).data

/-- LocationService.__init__: on a successful load the place names are
lowercased into the gazetteer; a load failure is caught and degrades to
the empty set with a logged message. -/
def initNzLocations (loadResult : Option (List String)) : List String :=
  match loadResult with
  | some locs => locs.map pyLower
  | none => []

/-- Declarative whole-word occurrence: pat appears literally at i with a
word boundary on each side. -/
def WordOccursAt (pat s : List Char) (i : Nat) : Prop :=
  (s.drop i).take pat.length = pat
  ∧ boundaryAt s i = true ∧ boundaryAt s (i + pat.length) = true

theorem wordAt_of_le (s : List Char) (p : Nat) (h : s.length ≤ p) :
    wordAt s p = false := by
  unfold wordAt
  rw [List.getD_eq_default _ _ h]
  decide

theorem reSearchWord_iff (pat s : List Char) :
    reSearchWord pat s = true ↔ ∃ i, WordOccursAt pat s i := by
  unfold reSearchWord
  rw [List.any_eq_true]
  constructor
  · rintro ⟨i, _, hmatch⟩
    refine ⟨i, ?_, ?_, ?_⟩ <;>
      simp only [wordMatchAt, occursAt, Bool.and_eq_true, decide_eq_true_eq] at hmatch <;>
      tauto
  · rintro ⟨i, hocc, hb1, hb2⟩
    have hile : i ≤ s.length := by
      by_contra hgt
      push_neg at hgt
      rcases hpat : pat with _ | ⟨p, ps⟩
      · subst hpat
        obtain ⟨q, rfl⟩ : ∃ q, i = q + 1 := ⟨i - 1, by omega⟩
        have h1 : wordAt s q = false := wordAt_of_le _ _ (by omega)
        have h2 : wordAt s (q + 1) = false := wordAt_of_le _ _ (by omega)
        simp [boundaryAt, boundaryBefore, h1, h2] at hb1
      · rw [hpat] at hocc
        have hnil : s.drop i = [] := List.drop_eq_nil_of_le (by omega)
        rw [hnil] at hocc
        simp at hocc
    exact ⟨i, List.mem_range.mpr (by omega),
      by simp [wordMatchAt, occursAt, hocc, hb1, hb2]⟩

/-- C7: the classifier answers home-country exactly when some gazetteer
entry whole-word-matches the normalized input; empty input and no-match
input answer False, and a gazetteer load failure degrades to a classifier
that always answers False; on gazetteer auckland/wellington the spec's
three concrete examples hold. -/
theorem is_nz_location_spec (locs : List String) (s : String) :
    (is_nz_location locs s = true
      ↔ s ≠ "" ∧ ∃ loc ∈ locs, ∃ i, WordOccursAt loc.data (clean_location s).data i)
    ∧ (∀ t, is_nz_location (initNzLocations none) t = false)
    ∧ is_nz_location ["auckland", "wellington"] "Auckland, New Zealand" = true
    ∧ is_nz_location ["auckland", "wellington"] "Sydney, Australia" = false
    ∧ is_nz_location ["auckland", "wellington"] "" = false := by
  refine ⟨?_, ?_, by decide, by decide, by decide⟩
  · unfold is_nz_location
    by_cases hs : s = ""
    · simp [hs]
    · simp only [hs, if_false, ne_eq, not_false_iff, true_and]
      rw [List.any_eq_true]
      constructor
      · rintro ⟨loc, hmem, hsearch⟩
        exact ⟨loc, hmem, (reSearchWord_iff _ _).1 hsearch⟩
      · rintro ⟨loc, hmem, hocc⟩
        exact ⟨loc, hmem, (reSearchWord_iff _ _).2 hocc⟩
  · intro t
    unfold is_nz_location initNzLocations
    split_ifs <;> simp

/-! ### Location enrichment (location_service.enrich_experience_locations) -/

/-- Enrichment of one experience entry (lines 66-71): classify on the
stripped location, falling back to the stripped company name when the
location is blank, and store the Boolean under is_nz. -/
def enrichExperience (nzLocations : List String) (e : Experience) : Experience :=
  let locStr := pyStrip e.location
  let chosen := if locStr = "" then pyStrip e.company else locStr
  { e with is_nz := some (is_nz_location nzLocations chosen) }

/-- A parsed record as enrich_experience_locations sees it: the
professional_experiences list, either wrapped under data.profile or flat
under profile (lines 57-64).  Fields the enrichment neither reads nor
writes (basics, blurb, ...) are omitted. -/
inductive ParsedJson where
  | wrapped (experiences : List Experience) : ParsedJson
  | flat (experiences : List Experience) : ParsedJson
deriving DecidableEq, Repr

/-- enrich_experience_locations: set is_nz on every experience, leaving
every other field unchanged, preserving the wrapper shape. -/
def enrich_experience_locations (nzLocations : List String) :
    ParsedJson → ParsedJson
  | .wrapped exps => .wrapped (exps.map (enrichExperience nzLocations))
  | .flat exps => .flat (exps.map (enrichExperience nzLocations))

/-- C10: enrich_experience_locations is idempotent — the is_nz flag is
recomputed solely from the location field (or the company field when the
location is blank), neither of which the operation modifies, so a second
application reproduces the first. -/
theorem enrich_experience_locations_idempotent
    (locs : List String) (p : ParsedJson) :
    enrich_experience_locations locs (enrich_experience_locations locs p)
      = enrich_experience_locations locs p := by
  have hexp : ∀ e, enrichExperience locs (enrichExperience locs e)
      = enrichExperience locs e := fun e => rfl
  cases p <;>
    simp [enrich_experience_locations, List.map_map, Function.comp, hexp]

/-! ### format_company_name (doc_generator lines 286-492)

The two reference tables live at absolute per-user paths outside the
repository, so their loads fail and the code runs with the deterministic
fallbacks: the hardcoded suffix table of load_company_suffixes and the
empty short-word whitelist of load_short_words. -/

/-- Fallback company-suffix table (doc_generator lines 261-266), mapping
a lowercased key to its canonical spelling. -/
def companySuffixes : List (String × String) :=
  [("lp", "LP"), ("llc", "LLC"), ("ltd", "Ltd"), ("inc", "Inc"),
   ("corp", "Corp"), ("plc", "PLC"), ("gmbh", "GmbH"), ("ag", "AG"),
   ("nv", "NV"), ("sa", "SA"), ("pty", "Pty"), ("co", "Co"),
   ("w.i.i", "W.I.I"), ("l.l.c", "LLC"), ("p.l.c", "PLC")]

/-- Short-word whitelist: empty, the load-failure fallback of
load_short_words (doc_generator lines 274-281). -/
def shortWords : List String := []

/-- Linking words lowercased unless first (doc_generator lines 301-304). -/
def commonWords : List String :=
  ["and", "of", "the", "in", "on", "at", "to", "for", "with", "by",
   "de", "van", "der", "den", "von", "und", "les", "la", "el"]

/-- Known business acronyms (doc_generator lines 326-329). -/
def knownAcronyms : List String :=
  ["AE", "IBM", "ANZ", "BNZ", "MSS", "LLC", "LTD", "INC", "PTY",
   "GmbH", "AG", "NV", "SA", "PLC", "CO", "W.I.I", "UAE", "KSA"]

/-- Common surnames never treated as acronyms (lines 332-335). -/
def commonLastNames : List String :=
  ["SMITH", "JONES", "BROWN", "WILSON", "TAYLOR", "JOHNSON",
   "WHITE", "MARTIN", "ANDERSON", "THOMPSON", "WOOD"]

/-- Uppercase terms never treated as acronyms (lines 338-340). -/
def notAcronyms : List String :=
  ["CONT", "SITE", "GULF", "GENERAL", "EAST", "WEST", "NORTH", "SOUTH"]

/-- ASCII uppercase-letter test (Python str.isupper per character). -/
def isUpperChar (c : Char) : Bool := 65 ≤ c.toNat ∧ c.toNat ≤ 90

/-- Python word.replace('.', ''). -/
def removeDots (s : String) : String := ⟨s.data.filter (fun c => c ≠ '.')⟩

/-- Whether the string ends with the given character. -/
def endsWithChar (s : String) (c : Char) : Bool :=
  match s.data.getLast? with
  | some x => x = c
  | none => false

/-- Whether the string starts with the given character. -/
def startsWithChar (s : String) (c : Char) : Bool :=
  match s.data with
  | [] => false
  | x :: _ => x = c

/-- is_acronym (doc_generator lines 312-363): deny-lists first, then the
allow-list, then the dots-between-uppercase rule; 2-3 letter and longer
words both fall back to the allow-list. -/
def is_acronym (word : String) : Bool :=
  let clean_word := removeDots word
  if notAcronyms.contains (pyUpper clean_word) then false
  else if knownAcronyms.contains clean_word then true
  else if commonLastNames.contains clean_word then false
  else if word.data.contains '.' && word.data.all (fun c => isUpperChar c || c = '.') then
    true
  else if clean_word.length ≤ 3 then knownAcronyms.contains clean_word
  else knownAcronyms.contains clean_word

/-- The token following a hyphen (lines 381-394): KSA special case, then
known acronyms kept, otherwise capitalized. -/
def hyphenNextWord (next_word : String) : String :=
  if pyLower next_word = "ksa" then "KSA"
  else if is_acronym next_word then next_word
  else pyCapitalize next_word

/-- Suffix-table lookup by exact key. -/
def lookupSuffix (key : String) : Option String :=
  (companySuffixes.find? (fun kv => kv.1 = key)).map (fun kv => kv.2)

/-- The j-word window starting at the current word, space-joined and
lowercased (line 418). -/
def windowKey (w : String) (rest : List String) (j : Nat) : String :=
  pyLower (joinSpace (w :: rest.take (j - 1)))

/-- The greedy multi-word suffix scan (lines 416-425): windows of length
min(3, remaining) down to 1, trying the exact key then the dotless key;
returns the canonical spelling and the window length consumed. -/
def findSuffixAux (w : String) (rest : List String) : Nat → Option (String × Nat)
  | 0 => none
  | j + 1 =>
    let key := windowKey w rest (j + 1)
    let keyNoDots := removeDots key
    match lookupSuffix key with
    | some canon => some (canon, j + 1)
    | none =>
      match lookupSuffix keyNoDots with
      | some canon => some (canon, j + 1)
      | none => findSuffixAux w rest j

/-- The suffix scan entry point with window bound min(3, remaining). -/
def findSuffix (w : String) (rest : List String) : Option (String × Nat) :=
  findSuffixAux w rest (min 3 (rest.length + 1))

/-- The format_part while-loop (lines 374-446), with the emitted words
accumulated in acc; each step consumes at least one token, so fuel equal
to the token count suffices.  Branch order mirrors the source: hyphen
with lookahead, KSA, CONT, lone hyphen, suffix windows, short tokens,
acronyms, linking words (only when acc is non-empty, i.e. not first),
default capitalization. -/
def format_part_loop : Nat → List String → List String → List String
  | _, acc, [] => acc
  | 0, acc, _ => acc
  | fuel + 1, acc, w :: rest =>
    if w = "-" ∧ ¬rest.isEmpty then
      match rest with
      | [] => acc
      | next :: rest2 => format_part_loop fuel (acc ++ ["-", hyphenNextWord next]) rest2
    else if pyLower w = "ksa" then
      format_part_loop fuel (acc ++ ["KSA"]) rest
    else if pyUpper w = "CONT" ∨ pyUpper w = "CONT." then
      format_part_loop fuel
        (acc ++ [if endsWithChar w '.' then "Cont." else "Cont"]) rest
    else if w = "-" then
      format_part_loop fuel (acc ++ [w]) rest
    else
      match findSuffix w rest with
      | some canonj =>
        format_part_loop fuel (acc ++ [canonj.1]) (rest.drop (canonj.2 - 1))
      | none =>
        if w.length ≤ 3 then
          if shortWords.any (fun sw => pyLower w = pyLower sw) then
            format_part_loop fuel (acc ++ [w]) rest
          else
            format_part_loop fuel (acc ++ [pyUpper w]) rest
        else if is_acronym w then
          format_part_loop fuel (acc ++ [w]) rest
        else if commonWords.contains (pyLower w) ∧ acc ≠ [] then
          format_part_loop fuel (acc ++ [pyLower w]) rest
        else
          format_part_loop fuel (acc ++ [pyCapitalize w]) rest

/-- format_part (lines 365-448): space out hyphens, split on whitespace,
run the token loop, and re-join with single spaces. -/
def format_part (text : String) : String :=
  if text = "" then ""
  else
    let t := pyReplace (pyReplace text "-" " - ") "  " " "
    let words := pySplit t
    joinSpace (format_part_loop words.length [] words)

/-- The re.sub removing an unterminated parenthesis and its trailing
content (lines 310 and 490): cut from the first open parenthesis that has
no closing parenthesis after it. -/
def dropUnterminated : List Char → List Char
  | [] => []
  | c :: rest =>
    if c = '(' ∧ ¬rest.contains ')' then [] else c :: dropUnterminated rest

/-- The character loop splitting the name into parts at parentheses
(lines 453-475): each open or close parenthesis flushes the stripped
current chunk and starts a new chunk with that single character. -/
def splitPartsAux : List String → List Char → List Char → List String
  | parts, current, [] =>
    if current.isEmpty then parts else parts ++ [⟨pyStripChars current⟩]
  | parts, current, '(' :: rest =>
    splitPartsAux
      (if current.isEmpty then parts else parts ++ [⟨pyStripChars current⟩])
      ['('] rest
  | parts, current, ')' :: rest =>
    splitPartsAux
      (if current.isEmpty then parts else parts ++ [⟨pyStripChars current⟩])
      [')'] rest
  | parts, current, c :: rest =>
    splitPartsAux parts (current ++ [c]) rest

/-- Python part[1:-1]. -/
def dropFirstLast (l : List Char) : List Char := (l.drop 1).dropLast

/-- Formatting of one part (lines 479-486): a part that both starts with
an open and ends with a close parenthesis has its inner content stripped,
all spaces removed and formatted in parentheses; every other part goes
through format_part unchanged. -/
def format_company_part (part : String) : String :=
  if startsWithChar part '(' ∧ endsWithChar part ')' then
    let inner : String := ⟨pyStripChars (dropFirstLast part.data)⟩
    let innerNoSpaces := pyReplace inner " " ""
    "(" ++ format_part innerNoSpaces ++ ")"
  else format_part part

/-- format_company_name (lines 286-492): space after hyphens, drop an
unterminated parenthesis, space around parentheses, split into parts,
format each part, re-join, collapse double spaces, remove the space
before a closing parenthesis, strip, and drop any remaining unterminated
parenthesis. -/
def format_company_name (name : String) : String :=
  if name = "" then ""
  else
    let n1 := pyReplace name "-" "- "
    let n2 : String := ⟨dropUnterminated n1.data⟩
    let n3 := pyReplace (pyReplace n2 "(" " (") ")" ") "
    let parts := splitPartsAux [] [] n3.data
    let joined := joinSpace (parts.map format_company_part)
    let j2 := pyStrip (pyReplace (pyReplace joined "  " " ") " )" ")")
    ⟨dropUnterminated j2.data⟩

/-! ### format_bullet_list (doc_generator lines 494-510) and the separate
placeholder formatter (template_formatter lines 90-157) -/

/-- Lexicographic comparison on code points, as Python sorted uses for
strings. -/
def charListLe : List Char → List Char → Bool
  | [], _ => true
  | _ :: _, [] => false
  | a :: as, b :: bs =>
    if a.toNat < b.toNat then true
    else if b.toNat < a.toNat then false
    else charListLe as bs

/-- String comparison for sorting. -/
def strLe (a b : String) : Bool := charListLe a.data b.data

/-- Insertion into a sorted list (stable). -/
def insertSorted (x : String) : List String → List String
  | [] => [x]
  | y :: ys => if strLe x y then x :: y :: ys else y :: insertSorted x ys

/-- Python sorted on a list of strings. -/
def pySortedStrings : List String → List String
  | [] => []
  | x :: xs => insertSorted x (pySortedStrings xs)

/-- format_bullet_list: the Python set argument is modelled as the list of
its distinct elements.  Each element is formatted with
format_company_name, the results are sorted and joined as bullets, and
the KSA fixups are applied.  There is no deduplication of the formatted
strings. -/
def format_bullet_list (items : List String) : String :=
  if items.isEmpty then "None"
  else
    let formatted_items := pySortedStrings (items.map format_company_name)
    let bullet_list := "• " ++ String.intercalate "\n• " formatted_items
    let b2 := pyReplace (pyReplace bullet_list " ksa" " KSA") " Ksa" " KSA"
    pyReplace (pyReplace b2 "(ksa)" "(KSA)") "(Ksa)" "(KSA)"

/-- Python value.split(c) on a single-character separator. -/
def splitOnChar (c : Char) : List Char → List (List Char)
  | [] => [[]]
  | x :: rest =>
    if x = c then [] :: splitOnChar c rest
    else
      match splitOnChar c rest with
      | [] => [[x]]
      | g :: gs => (x :: g) :: gs

/-- Country-acronym fixups of template_formatter (lines 148-151): each
capitalized variant is replaced by the all-caps acronym; the patterns are
non-overlapping, so the set iteration order does not matter. -/
def countryFix (s : String) : String :=
  pyReplace (pyReplace (pyReplace (pyReplace s "Uae" "UAE") "Ksa" "KSA") "Usa" "USA") "Uk" "UK"

/-- One non-position item of format_company_and_position_placeholders
(lines 123-146): capitalize the first word, lowercase AND, capitalize
other words, space after slashes, country acronyms. -/
def formatOnePlaceholderItem (item : String) : String :=
  let fw :=
    match pySplit item with
    | [] => []
    | w0 :: rest =>
      pyCapitalize w0 ::
        rest.map (fun w => if pyUpper w = "AND" then "and" else pyCapitalize w)
  let fi := joinSpace fw
  let fi2 := if fi.data.contains '/' then pyReplace (pyReplace fi "/" "/ ") "  " " " else fi
  countryFix fi2

/-- The case-insensitive duplicate filter of
format_company_and_position_placeholders (lines 153-156): an item whose
lowercase form was already seen is dropped. -/
def dedupLoop (seen : List String) : List String → List String
  | [] => []
  | item :: rest =>
    if seen.contains (pyLower item) then dedupLoop seen rest
    else item :: dedupLoop (pyLower item :: seen) rest

/-- The non-position bullet pipeline of
format_company_and_position_placeholders for one placeholder value:
semicolon-split, trim, format, dedupe case-insensitively, join as
bullets. -/
def format_placeholder_bullets (value : String) : String :=
  let items := ((splitOnChar ';' value.data).map
    (fun l => pyStrip ⟨l⟩)).filter (fun x => x ≠ "")
  let deduped := dedupLoop [] (items.map formatOnePlaceholderItem)
  String.intercalate "\n" (deduped.map (fun item => "• " ++ item))

/-! ### Claims C4, C5, C6 -/

/-- C4 counterexample: parenthesised content is not formatted as an
independent sub-scope — the part split never produces a part that both
starts with an open and ends with a close parenthesis, so the open
parenthesis stays glued to the first inner token, which str.capitalize
then leaves uncapitalized: "(stellar recruitment)" renders
"(stellar Recruitment)", not "(Stellar Recruitment)". -/
theorem paren_subscope_counterexample :
    format_company_name "(stellar recruitment)" = "(stellar Recruitment)"
    ∧ format_company_name "(stellar recruitment)" ≠ "(Stellar Recruitment)" :=
  ⟨by decide, by decide⟩

/-- C4 amended: the open parenthesis is kept attached to the first inner
token, which is therefore not capitalized; a space just inside the open
parenthesis is kept while the space before the closing parenthesis is
removed; an unterminated open parenthesis is dropped entirely together
with its trailing content. -/
theorem paren_handling_amended :
    format_company_name "(stellar recruitment)" = "(stellar Recruitment)"
    ∧ format_company_name "( stellar recruitment )" = "( Stellar Recruitment)"
    ∧ format_company_name "holdings (stellar" = "Holdings" :=
  ⟨by decide, by decide, by decide⟩

/-- C5 counterexample: the linking word "of" (3 letters or fewer) hits the
short-token branch before the linking-word branch and, with the
short-word whitelist empty, is rendered fully uppercase: "bank of
america" renders "Bank OF America", not "Bank of America". -/
theorem linking_words_counterexample :
    format_company_name "bank of america" = "Bank OF America"
    ∧ format_company_name "bank of america" ≠ "Bank of America" :=
  ⟨by decide, by decide⟩

/-- C5 amended: a token of three letters or fewer that is no hyphen, not
ksa/CONT and no suffix-table match always takes the short-token branch —
rendered fully uppercase (whitelist empty) — so the linking-word
lowercasing only ever applies to the one linking word longer than three
letters, "with", which is lowercased unless it is the first token. -/
theorem linking_words_amended :
    (∀ (fuel : Nat) (acc : List String) (w : String) (rest : List String),
      w.length ≤ 3 → w ≠ "-" → pyLower w ≠ "ksa" → pyUpper w ≠ "CONT" →
      pyUpper w ≠ "CONT." → findSuffix w rest = none →
      format_part_loop (fuel + 1) acc (w :: rest)
        = format_part_loop fuel (acc ++ [pyUpper w]) rest)
    ∧ format_company_name "partners with vision" = "Partners with Vision"
    ∧ format_company_name "with vision" = "With Vision"
    ∧ format_company_name "bank of america" = "Bank OF America" := by
  refine ⟨?_, by decide, by decide, by decide⟩
  intro fuel acc w rest hlen hdash hksa hc1 hc2 hsuf
  simp only [format_part_loop, hdash, false_and, if_false, hksa, hc1, hc2, or_self,
    hsuf, hlen, if_true, shortWords, List.any_nil, Bool.false_eq_true]

/-- Witness for C5 amended at the token "of" after "Bank". -/
theorem linking_words_amended_witness :
    ("of" : String).length ≤ 3 ∧ ("of" : String) ≠ "-"
    ∧ pyLower "of" ≠ "ksa" ∧ pyUpper "of" ≠ "CONT" ∧ pyUpper "of" ≠ "CONT."
    ∧ findSuffix "of" [] = none
    ∧ format_part_loop 1 ["Bank"] ["of"]
        = format_part_loop 0 (["Bank"] ++ [pyUpper "of"]) [] :=
  ⟨by decide, by decide, by decide, by decide, by decide, by decide,
    linking_words_amended.1 0 ["Bank"] "of" [] (by decide) (by decide)
      (by decide) (by decide) (by decide) (by decide)⟩

/-- C6 counterexample: format_bullet_list does not deduplicate — the set
elements "abc corp" and "ABC Corp" both format to "ABC Corp" and the
output keeps both bullets. -/
theorem bullet_dedup_counterexample :
    format_bullet_list ["abc corp", "ABC Corp"] = "• ABC Corp\n• ABC Corp"
    ∧ (format_bullet_list ["abc corp", "ABC Corp"]).data.count '•' = 2 :=
  ⟨by decide, by decide⟩

/-- C6 amended: format_bullet_list keeps one bullet per input element with
no deduplication of equal formatted strings; the case-insensitive
deduplication exists only in the separate placeholder-formatter path of
template_formatter, which keeps a single bullet for the same pair. -/
theorem bullet_dedup_amended :
    format_bullet_list ["abc corp", "ABC Corp"] = "• ABC Corp\n• ABC Corp"
    ∧ format_placeholder_bullets "abc corp; ABC Corp" = "• Abc Corp" :=
  ⟨by decide, by decide⟩

/-! ### make_parser_api_call (cv_parser lines 45-101) and the parse stage
of process_cv_pipeline (draft_app lines 277-292) -/

/-- One attempt's outcome of requests.post inside make_parser_api_call:
an HTTP 200 with a payload, a non-200 status code, a raised Timeout, or
another raised RequestException. -/
inductive ApiOutcome where
  | ok (payload : Nat) : ApiOutcome
  | httpError (code : Nat) : ApiOutcome
  | timeout : ApiOutcome
  | reqError : ApiOutcome
deriving DecidableEq, Repr

/-- Whether an attempt outcome is a retryable 5xx response. -/
def is5xx (o : ApiOutcome) : Bool :=
  match o with
  | .httpError c => 500 ≤ c ∧ c < 600
  | _ => false

/-- The retry loop of make_parser_api_call, the environment giving each
attempt's outcome and the backoff sleeps collected: 200 returns the
payload; a 5xx sleeps delay * 2 ^ attempt and retries unless this was the
last attempt; any other status returns None; a Timeout returns None
immediately with no retry and no sleep; another request exception retries
with the same backoff.  fuel = maxRetries - attempt, so recursion is
structural. -/
def makeParserApiCallAux (env : Nat → ApiOutcome) (maxRetries : Nat) (delay : ℚ) :
    Nat → Nat → Option Nat × List ℚ
  | 0, _ => (none, [])
  | fuel + 1, attempt =>
    if attempt < maxRetries then
      match env attempt with
      | .ok p => (some p, [])
      | .timeout => (none, [])
      | .httpError c =>
        if 500 ≤ c ∧ c < 600 then
          if attempt + 1 < maxRetries then
            let r := makeParserApiCallAux env maxRetries delay fuel (attempt + 1)
            (r.1, delay * 2 ^ attempt :: r.2)
          else (none, [])
        else (none, [])
      | .reqError =>
        if attempt + 1 < maxRetries then
          let r := makeParserApiCallAux env maxRetries delay fuel (attempt + 1)
          (r.1, delay * 2 ^ attempt :: r.2)
        else (none, [])
    else (none, [])

/-- make_parser_api_call: the loop from attempt 0; delay is never mutated
in the source loop. -/
def make_parser_api_call (env : Nat → ApiOutcome) (maxRetries : Nat) (delay : ℚ) :
    Option Nat × List ℚ :=
  makeParserApiCallAux env maxRetries delay maxRetries 0

/-- The JSON-able response dictionary process_cv_pipeline returns. -/
structure PipelineResponse where
  success : Bool
  message : String
  status : Option String
  retry_as_pdf : Option Bool
deriving DecidableEq, Repr

/-- The structured recoverable outcome returned when parsing fails or
times out (draft_app lines 287-292). -/
def parseFailureResponse : PipelineResponse :=
  ⟨false,
   "Complex file structure found, please save this resume as a PDF then upload again, this should solve the problem.",
   some "warning", some true⟩

/-- The result of the send-to-parser method of CVParser (cv_parser lines
110-191) when the file download succeeds, with the default max_retries =
5 and initial_delay = 1.0: a None from make_parser_api_call (failure or
timeout) propagates as None; the location-enrichment and save steps do
not affect the None path and are omitted. -/
def send_to_cv_parser_result (env : Nat → ApiOutcome) : Option Nat :=
  (make_parser_api_call env 5 1).1

/-- The parse stage of process_cv_pipeline: a falsy parsed result returns
the structured recoverable warning with retry_as_pdf guidance; otherwise
the pipeline continues with the payload. -/
def parseStageOutcome (env : Nat → ApiOutcome) : PipelineResponse ⊕ Nat :=
  match send_to_cv_parser_result env with
  | none => Sum.inl parseFailureResponse
  | some p => Sum.inr p

theorem rangeMapShift (d : ℚ) (a k : Nat) :
    d * 2 ^ a :: (List.range k).map (fun i => d * 2 ^ (a + 1 + i))
      = (List.range (k + 1)).map fun i => d * 2 ^ (a + i) := by
  rw [List.range_succ_eq_map, List.map_cons, List.map_map]
  congr 1
  apply List.map_congr_left
  intro i _
  simp only [Function.comp_apply]
  have he : a + Nat.succ i = a + 1 + i := by omega
  rw [he]

theorem makeParserAux_timeout (env : Nat → ApiOutcome) (d : ℚ) :
    ∀ (k a : Nat), a + k < 5 →
      (∀ i, a ≤ i → i < a + k → is5xx (env i) = true) →
      env (a + k) = .timeout →
      makeParserApiCallAux env 5 d (5 - a) a
        = (none, (List.range k).map fun i => d * 2 ^ (a + i)) := by
  intro k
  induction k with
  | zero =>
    intro a ha h5 ht
    obtain ⟨f, hf⟩ : ∃ f, 5 - a = f + 1 := ⟨4 - a, by omega⟩
    rw [hf]
    rw [Nat.add_zero] at ht
    simp only [makeParserApiCallAux]
    rw [if_pos (by omega), ht]
    simp
  | succ k ih =>
    intro a ha h5 ht
    obtain ⟨f, hf⟩ : ∃ f, 5 - a = f + 1 := ⟨4 - a, by omega⟩
    rw [hf]
    have hae : is5xx (env a) = true := h5 a (Nat.le_refl a) (by omega)
    simp only [makeParserApiCallAux]
    rw [if_pos (by omega)]
    cases henv : env a with
    | ok p => rw [henv] at hae; simp [is5xx] at hae
    | timeout => rw [henv] at hae; simp [is5xx] at hae
    | reqError => rw [henv] at hae; simp [is5xx] at hae
    | httpError c =>
      rw [henv] at hae
      simp only [is5xx, decide_eq_true_eq] at hae
      dsimp only
      rw [if_pos hae, if_pos (by omega : a + 1 < 5)]
      have hrec := ih (a + 1) (by omega)
        (fun i h1 h2 => h5 i (by omega) (by omega))
        (by rw [show a + 1 + k = a + (k + 1) from by omega]; exact ht)
      rw [show f = 5 - (a + 1) from by omega, hrec]
      simp only
      congr 1
      exact rangeMapShift d a k

theorem makeParserAux_all5xx (env : Nat → ApiOutcome) (d : ℚ) :
    ∀ (j a : Nat), a + j = 5 →
      (∀ i, a ≤ i → i < 5 → is5xx (env i) = true) →
      makeParserApiCallAux env 5 d j a
        = (none, (List.range (j - 1)).map fun i => d * 2 ^ (a + i)) := by
  intro j
  induction j with
  | zero => intro a ha h5; simp [makeParserApiCallAux]
  | succ j ih =>
    intro a ha h5
    have hae : is5xx (env a) = true := h5 a (Nat.le_refl a) (by omega)
    simp only [makeParserApiCallAux]
    rw [if_pos (by omega)]
    cases henv : env a with
    | ok p => rw [henv] at hae; simp [is5xx] at hae
    | timeout => rw [henv] at hae; simp [is5xx] at hae
    | reqError => rw [henv] at hae; simp [is5xx] at hae
    | httpError c =>
      rw [henv] at hae
      simp only [is5xx, decide_eq_true_eq] at hae
      dsimp only
      rw [if_pos hae]
      by_cases hlast : a + 1 < 5
      · rw [if_pos hlast]
        have hrec := ih (a + 1) (by omega) (fun i h1 h2 => h5 i (by omega) h2)
        rw [hrec]
        simp only [Nat.succ_sub_one]
        have hj : j = (j - 1) + 1 := by omega
        rw [hj] at *
        congr 1
        exact rangeMapShift d a (j - 1)
      · rw [if_neg hlast]
        have hj0 : j = 0 := by omega
        subst hj0
        simp

/-- C3: a 5xx response is retried with exponential backoff delay * 2 ^
attempt for up to five attempts (so four sleeps when every attempt is
5xx), while a timeout aborts the call at once — no retry, no sleep —
returning None, which the pipeline surfaces as the structured recoverable
warning carrying the save-as-PDF guidance (status warning, retry_as_pdf
true) rather than an unhandled exception. -/
theorem parse_retry_and_timeout (env1 env2 : Nat → ApiOutcome) (k : Nat) (d : ℚ)
    (hk : k < 5)
    (h5 : ∀ i, i < k → is5xx (env1 i) = true)
    (ht : env1 k = .timeout)
    (hall : ∀ i, i < 5 → is5xx (env2 i) = true) :
    make_parser_api_call env1 5 d
        = (none, (List.range k).map fun i => d * 2 ^ i)
    ∧ parseStageOutcome env1 = Sum.inl parseFailureResponse
    ∧ parseFailureResponse.success = false
    ∧ parseFailureResponse.status = some "warning"
    ∧ parseFailureResponse.retry_as_pdf = some true
    ∧ make_parser_api_call env2 5 d
        = (none, (List.range 4).map fun i => d * 2 ^ i) := by
  have h1 : ∀ d' : ℚ, make_parser_api_call env1 5 d'
      = (none, (List.range k).map fun i => d' * 2 ^ i) := by
    intro d'
    have h := makeParserAux_timeout env1 d' k 0 (by omega)
      (fun i hi1 hi2 => h5 i (by omega)) (by simpa using ht)
    simpa [make_parser_api_call] using h
  refine ⟨h1 d, ?_, rfl, rfl, rfl, ?_⟩
  · unfold parseStageOutcome send_to_cv_parser_result
    rw [h1 1]
  · have h := makeParserAux_all5xx env2 d 5 0 (by omega) (fun i _ h2 => hall i h2)
    simpa [make_parser_api_call] using h

/-- Witness for C3: a first-attempt timeout yields None with no sleeps
and the recoverable warning, and five straight 503s yield None after the
four exponential-backoff sleeps. -/
theorem parse_retry_and_timeout_witness :
    (0 : Nat) < 5
    ∧ (fun _ : Nat => ApiOutcome.timeout) 0 = ApiOutcome.timeout
    ∧ (∀ i, i < 5 → is5xx ((fun _ : Nat => ApiOutcome.httpError 503) i) = true)
    ∧ make_parser_api_call (fun _ => ApiOutcome.timeout) 5 1 = (none, [])
    ∧ parseStageOutcome (fun _ => ApiOutcome.timeout) = Sum.inl parseFailureResponse
    ∧ make_parser_api_call (fun _ => ApiOutcome.httpError 503) 5 1
        = (none, (List.range 4).map fun i => (1 : ℚ) * 2 ^ i) := by
  have h := parse_retry_and_timeout (fun _ => ApiOutcome.timeout)
    (fun _ => ApiOutcome.httpError 503) 0 1 (by omega)
    (fun i hi => absurd hi (by omega)) rfl
    (fun i _ => rfl)
  exact ⟨by omega, rfl, fun i _ => rfl,
    by simpa using h.1, h.2.1, h.2.2.2.2.2⟩

/-! ### Intermediate-JSON file keys (draft_app lines 228 and 367-376,
doc_generator lines 689-692, utils.sanitize_filename) -/

/-- utils.sanitize_filename: replace hyphens with underscores. -/
def sanitize_filename (filename : String) : String := pyReplace filename "-" "_"

/-- os.path.basename for forward-slash paths: the part after the last
slash. -/
def pyBasename (p : String) : String :=
  ⟨(splitOnChar '/' p.data).getLastD []⟩

/-- The stem of a simple filename (os.path.splitext base, Path(...).stem):
the name up to its last dot, for names without leading dots. -/
def pyStem (s : String) : String :=
  if s.data.contains '.' then
    ⟨((s.data.reverse.dropWhile (fun c => c ≠ '.')).drop 1).reverse⟩
  else s

/-- The stage-5 enriched-JSON path (draft_app line 369): keyed by the raw
base name of the uploaded file, with no sanitization and no
collision-avoiding suffix. -/
def stage5_enriched_path (file_path : String) : String :=
  "parsed_jsons/" ++ pyStem (pyBasename file_path) ++ "_enriched.json"

/-- The fixed template path stage 6 constructs DocGenerator with
(draft_app line 387). -/
def pipelineTemplatePath : String :=
  "/Users/claytonbadland/flask_project/templates/Current_template.docx"

/-- The path prepare_context writes the updated record to (doc_generator
line 690): derived from the template stem, not from the uploaded file. -/
def prepare_context_json_path (template_path : String) : String :=
  "parsed_jsons/" ++ pyStem (pyBasename template_path) ++ "_enriched.json"

/-- The prepare_context write path during a pipeline run for a given
uploaded filename: stage 6 always passes the fixed template path, so the
upload name is ignored. -/
def run_prepare_write_path (uploadFilename : String) : String :=
  prepare_context_json_path pipelineTemplatePath

/-- C9 counterexample: the derived keys carry no collision-avoiding,
in-use-dependent suffix — the prepare_context write path is one constant
shared by different uploads, and the stage-5 key keeps the raw unsanitized
base name. -/
theorem intermediate_key_counterexample :
    run_prepare_write_path "alice_cv.docx" = run_prepare_write_path "bob_cv.docx"
    ∧ run_prepare_write_path "alice_cv.docx"
        = "parsed_jsons/Current_template_enriched.json"
    ∧ stage5_enriched_path "uploads/my-cv.docx" = "parsed_jsons/my-cv_enriched.json"
    ∧ sanitize_filename "my-cv" = "my_cv"
    ∧ stage5_enriched_path "uploads/my-cv.docx"
        ≠ "parsed_jsons/" ++ sanitize_filename "my-cv" ++ "_enriched.json" :=
  ⟨rfl, by decide, by decide, by decide, by decide⟩

/-- C9 amended: the enriched-JSON key is a pure function of the uploaded
base name alone — unsanitized, with no collision-avoiding suffix — so two
runs with the same filename target the same file, and the prepare_context
rewrite targets one template-stem-keyed path shared by every run. -/
theorem intermediate_key_amended :
    (∀ f1 f2 : String, run_prepare_write_path f1 = run_prepare_write_path f2)
    ∧ (∀ f : String, run_prepare_write_path f
        = "parsed_jsons/Current_template_enriched.json")
    ∧ stage5_enriched_path "uploads/report.docx"
        = "parsed_jsons/report_enriched.json" :=
  ⟨fun _ _ => rfl, fun _ => rfl, by decide⟩

end Brindle
